import Mathlib

/-!
Verification of the multi-modal PDF retrieval-and-answer pipeline
(`read_pdf_anything`, `src/server/app`).

Python strings are embedded as `List Char` (`PyStr`), so that every
operation the services perform on them (length, slicing, strip, lower,
substring test) is an executable Lean function with the same semantics.
LLM / vision / vector-store calls are black-box collaborators; they are
modelled as oracle fields of an `Env` record.  A call that can raise is an
`Option`-valued oracle (`none` = the call raised).  Prompts handed to the
text-completion oracle are modelled as a structured `Prompt` datatype whose
payloads are computed exactly as the Python code computes them; the final
f-string rendering of a prompt is presentation only and is not modelled.
-/

/-- Python strings, embedded as lists of characters. -/
abbrev PyStr := List Char

/-- Coerce a Lean string literal to a `PyStr`. -/
def pyOf (s : String) : PyStr := s.data

/-- The characters Python's `str.strip()` removes (`str.isspace` ASCII set). -/
def isPySpace (c : Char) : Bool :=
  c = ' ' ∨ c = '\t' ∨ c = '\n' ∨ c = '\x0d' ∨ c = '\x0b' ∨ c = '\x0c'

/-- Python `str.strip()`. -/
def pyStrip (s : PyStr) : PyStr :=
  ((s.dropWhile isPySpace).reverse.dropWhile isPySpace).reverse

/-- ASCII lower-casing of one character (Python `str.lower`, ASCII fragment). -/
def lowerChar (c : Char) : Char :=
  if 'A' ≤ c ∧ c ≤ 'Z' then Char.ofNat (c.toNat + 32) else c

/-- ASCII upper-casing of one character (Python `str.upper`, ASCII fragment). -/
def upperChar (c : Char) : Char :=
  if 'a' ≤ c ∧ c ≤ 'z' then Char.ofNat (c.toNat - 32) else c

/-- Python `str.lower()` (ASCII fragment). -/
def pyLower (s : PyStr) : PyStr := s.map lowerChar

/-- Python `str.upper()` (ASCII fragment). -/
def pyUpper (s : PyStr) : PyStr := s.map upperChar

/-- Python `sub in s` substring test. -/
def pyContains : PyStr → PyStr → Bool
  | [], sub => sub.isPrefixOf []
  | c :: rest, sub => sub.isPrefixOf (c :: rest) || pyContains rest sub

/-- Python `sep.join(parts)`. -/
def joinSep (sep : PyStr) : List PyStr → PyStr
  | [] => []
  | [x] => x
  | x :: y :: rest => x ++ sep ++ joinSep sep (y :: rest)

/-- Python `l[-n:]` on a list. -/
def lastN (n : Nat) (l : List α) : List α := l.drop (l.length - n)

/-! ## Configuration (`app/config.py`, `Settings`) -/

/-- `Settings.TOP_K_CHUNKS` (config.py). -/
def topKChunks : Nat := 8

/-- `Settings.MAX_CONTEXT_MESSAGES` (config.py). -/
def maxContextMessages : Nat := 10

/-- `Settings.MAX_CONTEXT_TOKENS` (config.py). -/
def maxContextTokens : Nat := 4000

/-- `Settings.SUMMARIZE_THRESHOLD` (config.py). -/
def summarizeThreshold : Nat := 8

/-! ## Image classifier (`unstructured_pdf_service.py`, `ImageClassifier`) -/

/-- The metadata facts `should_caption_image` inspects on the element via
`hasattr` (attribute presence checks on the unstructured element). -/
structure ImgElem where
  hasMetadata : Bool
  metadataHasParentId : Bool

/-- `ImageClassifier.CAPTION_WORTHY_PATTERNS`. -/
def captionWorthyPatterns : List PyStr :=
  [pyOf "graph", pyOf "plot", pyOf "chart", pyOf "diagram", pyOf "figure",
   pyOf "illustration", pyOf "flowchart", pyOf "timeline", pyOf "map"]

/-- `ImageClassifier.should_caption_image(element, context_text)`. -/
def shouldCaptionImage (element : ImgElem) (contextText : PyStr) : Bool :=
  if contextText = [] then true
  else
    let contextLower := pyLower contextText
    if captionWorthyPatterns.any (fun p => pyContains contextLower p) then true
    else if element.hasMetadata && element.metadataHasParentId then true
    else true

/-! ## Conversation context window (`rag_service.py`) -/

/-- One chat-history message (`{role, content}` dict). -/
structure Msg where
  role : PyStr
  content : PyStr
  deriving DecidableEq

/-- `RAGService._estimate_tokens`: `len(text) // 4`. -/
def estimateTokens (text : PyStr) : Nat := text.length / 4

/-- Total token estimate of `_manage_context_window`: per-message estimates of
the history, plus the estimate of the current message. -/
def totalEstimatedTokens (chatHistory : List Msg) (currentMessage : PyStr) : Nat :=
  chatHistory.foldl (fun acc m => acc + estimateTokens m.content) 0
    + estimateTokens currentMessage

/-- `RAGService._manage_context_window(chat_history, current_message)`. -/
def manageContextWindow (chatHistory : List Msg) (currentMessage : PyStr) :
    List Msg × Bool :=
  if chatHistory = [] then ([], false)
  else
    let totalTokens := totalEstimatedTokens chatHistory currentMessage
    let needsSummarization :=
      summarizeThreshold ≤ chatHistory.length ∨ maxContextTokens < totalTokens
    if needsSummarization then (lastN maxContextMessages chatHistory, true)
    else (chatHistory, false)

/-- Modelled from the spec: the `needs_summary` condition exactly as claim C4
words it — "true exactly when the history has at least 8 messages or the
token estimate exceeds 4000", with no further case analysis. -/
def specNeedsSummary (chatHistory : List Msg) (currentMessage : PyStr) : Bool :=
  8 ≤ chatHistory.length ∨ 4000 < totalEstimatedTokens chatHistory currentMessage

/-! ## Retrieved documents (LangChain `Document`s in the vector store) -/

/-- A retrieved chunk: `page_content` plus the metadata fields the pipeline
reads (`type`, `page`, `pdf_id`, `element_id`).  `metaType = none` models a
metadata dict without a `"type"` key (`metadata.get("type", "text")`). -/
structure RDoc where
  content : PyStr
  metaType : Option String
  page : Nat
  pdfId : String
  elementId : String
  deriving DecidableEq

/-- `doc.metadata.get("type", "text")`. -/
def docType (d : RDoc) : String := d.metaType.getD "text"

/-! ## Oracles for the black-box collaborators -/

/-- A prompt handed to `llm_service.synthesize_answer`, by call site.  The
payloads are computed exactly as the Python code computes them; only the
final f-string rendering is elided. -/
inductive Prompt where
  /-- `summarize_conversation`: the joined `ROLE: content` conversation text. -/
  | summarize (conversationText : PyStr)
  /-- General-knowledge answer prompt: optional summary context, optional
  rendered recent conversation, and the question. -/
  | generalAnswer (summaryContext : Option PyStr) (conversationContext : Option PyStr)
      (question : PyStr)
  /-- `_is_general_question`, no-docs branch: GENERAL vs DOCUMENT decision. -/
  | generalVsDocument (query : PyStr)
  /-- `_is_general_question`, docs branch: relevance check over the first 500
  chars of the joined top-3 snippets. -/
  | relevanceCheck (query : PyStr) (retrievedContent : PyStr)
  /-- `_build_vision_synthesis_prompt`: query, per-image `(page, analysis)`
  insights, and supporting context entries. -/
  | visionSynthesis (query : PyStr) (imageInsights : List (Nat × PyStr))
      (supportingContext : List (String × Nat × PyStr))
  /-- `_build_text_synthesis_prompt`: query, `(page, content)` tables, texts. -/
  | textSynthesis (query : PyStr) (tablesInfo : List (Nat × PyStr))
      (textsInfo : List (Nat × PyStr))
  deriving DecidableEq

/-- The black-box collaborators of the pipeline.  `none` from an oracle models
the corresponding Python call raising an exception. -/
structure Env where
  /-- `pdf_service.get_pdf(pdf_id, user_id)`: `some filename` or absent. -/
  getPdf : String → Option String
  /-- `vector_store.similarity_search(pdf_id, query, k)`. -/
  search : String → PyStr → Nat → Option (List RDoc)
  /-- `llm_service.synthesize_answer(prompt)`. -/
  llm : Prompt → Option PyStr
  /-- `llm_service.analyze_image_with_query(base64, query)`. -/
  analyzeImage : PyStr → PyStr → Option PyStr
  /-- `image_store_service.get_image(pdf_id, element_id)`: base64 payload. -/
  getImage : String → String → Option PyStr

/-! ## Conversation summarization (`rag_service.py`, `summarize_conversation`) -/

/-- The `"\n".join(f"{role.upper()}: {content}")` conversation text. -/
def conversationText (messages : List Msg) : PyStr :=
  joinSep (pyOf "\n")
    (messages.map (fun m => pyUpper m.role ++ pyOf ": " ++ m.content))

/-- `RAGService.summarize_conversation(messages)`: the whole body is wrapped
in `try/except`, degrading to a fixed placeholder on any failure. -/
def summarizeConversation (env : Env) (messages : List Msg) : PyStr :=
  match env.llm (.summarize (conversationText messages)) with
  | some summary => summary
  | none => pyOf "Previous conversation context"

/-! ## General-question classification (`rag_service.py`) -/

/-- The fixed interrogative prefixes of `_is_likely_general_question`. -/
def generalPrefixes : List PyStr :=
  [pyOf "what is ", pyOf "what are ", pyOf "who is ", pyOf "who are ",
   pyOf "when did ", pyOf "when was ", pyOf "where is ", pyOf "where are ",
   pyOf "how does ", pyOf "how do ", pyOf "how can ", pyOf "how would ",
   pyOf "why does ", pyOf "why do ", pyOf "why is ",
   pyOf "define ", pyOf "explain ", pyOf "describe "]

/-- `RAGService._is_likely_general_question(query)`. -/
def isLikelyGeneralQuestion (query : PyStr) : Bool :=
  let q := pyLower (pyStrip query)
  if q = [] then true
  else generalPrefixes.any (fun p => p.isPrefixOf q)

/-- `RAGService._is_general_question(query, retrieved_docs)`.  The retrieved
docs carry the pdf id they came from, as in the Python `(doc, pdf_id)` pairs.
On the docs branch the dead `"max_similarity" in locals()` fallback check is
always false (no such local exists), so a failed relevance call yields
`False`. -/
def isGeneralQuestion (env : Env) (query : PyStr)
    (retrievedDocs : List (RDoc × String)) : Bool :=
  if retrievedDocs.isEmpty then
    match env.llm (.generalVsDocument query) with
    | some decision =>
      let decisionClean := pyUpper (pyStrip decision)
      pyContains decisionClean (pyOf "GENERAL")
        && !(pyContains decisionClean (pyOf "DOCUMENT"))
    | none => true
  else
    let retrievedContent :=
      joinSep (pyOf " ")
        ((retrievedDocs.take 3).map (fun p => p.1.content.take 200))
    match env.llm (.relevanceCheck query (retrievedContent.take 500)) with
    | some relevanceDecision =>
      pyContains (pyUpper (pyStrip relevanceDecision)) (pyOf "NOT_RELEVANT")
    | none => false

/-- The completion-service prompt `_is_general_question` issues for a given
input (used to state which call "the classifier's call" is). -/
def classifierPrompt (query : PyStr) (retrievedDocs : List (RDoc × String)) :
    Prompt :=
  if retrievedDocs.isEmpty then .generalVsDocument query
  else
    .relevanceCheck query
      ((joinSep (pyOf " ")
        ((retrievedDocs.take 3).map (fun p => p.1.content.take 200))).take 500)

/-! ## General answer (`rag_service.py`, `_answer_general_question` and the
identical inline branch of `_chat_with_pdf_multimodal`) -/

/-- One aggregated citation entry (`{pdfId, pdfName, pages, types}`). -/
structure Source where
  pdfId : String
  pdfName : String
  pages : List Nat
  types : List String
  deriving DecidableEq

/-- One chat result (`success` is always `True` on the non-raising paths and
is omitted). -/
structure ChatResult where
  response : PyStr
  sources : List Source
  mode : String
  deriving DecidableEq

/-- The `f"{role.upper()}: {content}\n"` accumulation building
`conversation_context` from the recent messages. -/
def renderConversation (messages : List Msg) : PyStr :=
  messages.foldl
    (fun acc m => acc ++ pyUpper m.role ++ pyOf ": " ++ m.content ++ pyOf "\n") []

/-- `MAX_CONTEXT_MESSAGES // 2`. -/
def halfWindow : Nat := maxContextMessages / 2

/-- `RAGService._answer_general_question(message, chat_history)`: trim the
window, summarize the older half when needed, answer from general knowledge
with empty sources.  A failing final completion call raises (`Except.error`). -/
def answerGeneral (env : Env) (message : PyStr) (chatHistory : List Msg) :
    Except String ChatResult :=
  let trimmed := (manageContextWindow chatHistory message).1
  let needsSummarization := (manageContextWindow chatHistory message).2
  let ctx : Option PyStr × List Msg :=
    if trimmed ≠ [] then
      if needsSummarization ∧ halfWindow < trimmed.length then
        (some (summarizeConversation env (trimmed.take (trimmed.length - halfWindow))),
         lastN halfWindow trimmed)
      else (none, trimmed)
    else (none, [])
  let conversationContext : Option PyStr :=
    if ctx.2 ≠ [] then some (renderConversation ctx.2) else none
  match env.llm (.generalAnswer ctx.1 conversationContext message) with
  | some finalResponse => .ok ⟨finalResponse, [], "general"⟩
  | none => .error "Multi-modal RAG chat failed"

/-! ## Retrieval routing (`multimodal_rag_service.py`, `retrieve_and_route`) -/

/-- The three per-type accumulators of `retrieve_and_route`. -/
structure Routed where
  textDocs : List RDoc
  tableDocs : List RDoc
  imageCaptionDocs : List RDoc
  deriving DecidableEq

/-- The inner `for doc in docs` loop: append each doc to the list matching its
`type`; docs of any other type are dropped. -/
def partitionDocs (docs : List RDoc) (acc : Routed) : Routed :=
  docs.foldl
    (fun acc doc =>
      if docType doc = "image_caption" then
        { acc with imageCaptionDocs := acc.imageCaptionDocs ++ [doc] }
      else if docType doc = "table" then
        { acc with tableDocs := acc.tableDocs ++ [doc] }
      else if docType doc = "text" then
        { acc with textDocs := acc.textDocs ++ [doc] }
      else acc)
    acc

/-- The outer `for pdf_id in pdf_ids` loop: a failed search (`none`) is caught
and skipped (`except ... continue`). -/
def retrieveAll (env : Env) (query : PyStr) (k : Nat) :
    List String → Routed → Routed
  | [], acc => acc
  | pdfId :: rest, acc =>
    match env.search pdfId query k with
    | none => retrieveAll env query k rest acc
    | some docs => retrieveAll env query k rest (partitionDocs docs acc)

/-- `k = k or settings.TOP_K_CHUNKS`: Python `or` replaces both `None` and
`0` by the default. -/
def kOrDefault : Option Nat → Nat
  | none => topKChunks
  | some n => if n = 0 then topKChunks else n

/-- The routing decision of `retrieve_and_route` plus its partitioned docs:
`use_vision = len(image_caption_docs) > 0`, decided globally over the whole
set of queried documents. -/
def retrieveAndRoute (env : Env) (query : PyStr) (pdfIds : List String)
    (k : Option Nat) : Bool × Routed :=
  let routed := retrieveAll env query (kOrDefault k) pdfIds ⟨[], [], []⟩
  (0 < routed.imageCaptionDocs.length, routed)

/-! ## Source preparation (`multimodal_rag_service.py`,
`multimodal_rag_answer`, Step 3) -/

/-- The `source_pages` set: deduplicated `(pdf_id, page)` pairs (Python builds
a `set`; its iteration order is unspecified, modelled here as first-occurrence
order, which no downstream claim depends on). -/
def dedupPairs (pairs : List (String × Nat)) : List (String × Nat) :=
  pairs.foldl (fun acc p => if acc.contains p then acc else acc ++ [p]) []

/-- The `pdf_pages` grouping dict: pages collected per pdf id, insertion
order. -/
def groupPages (pairs : List (String × Nat)) : List (String × List Nat) :=
  pairs.foldl
    (fun acc p =>
      if acc.any (fun g => g.1 = p.1) then
        acc.map (fun g => if g.1 = p.1 then (g.1, g.2 ++ [p.2]) else g)
      else acc ++ [(p.1, [p.2])])
    []

/-- Insertion into a sorted list of page numbers. -/
def insertSorted (n : Nat) : List Nat → List Nat
  | [] => [n]
  | m :: rest => if n ≤ m then n :: m :: rest else m :: insertSorted n rest

/-- Python `sorted(pages)`. -/
def sortPages (pages : List Nat) : List Nat := pages.foldr insertSorted []

/-- Step 3 of `multimodal_rag_answer`: derive the source list from the
retrieved docs.  Only docs with a truthy (`≠ 0`) page contribute, and a pdf
whose registry lookup fails is dropped; there is no fallback for an empty
result. -/
def prepareSourcesMM (env : Env) (routed : Routed) (mode : String) :
    List Source :=
  let allDocs := routed.textDocs ++ routed.tableDocs ++ routed.imageCaptionDocs
  let sourcePages :=
    dedupPairs (allDocs.filterMap
      (fun d => if d.page ≠ 0 then some (d.pdfId, d.page) else none))
  (groupPages sourcePages).filterMap
    (fun g => (env.getPdf g.1).map
      (fun name => ⟨g.1, name, sortPages g.2, [mode]⟩))

/-! ## Answer synthesis (`multimodal_rag_service.py`) -/

/-- One entry of `fetch_images_for_vision`'s result. -/
structure VisionImage where
  base64 : PyStr
  caption : PyStr
  page : Nat
  elementId : String
  deriving DecidableEq

/-- `fetch_images_for_vision`: captions whose raw image is absent from the
image store are dropped. -/
def fetchImagesForVision (env : Env) (imageCaptionDocs : List RDoc) :
    List VisionImage :=
  imageCaptionDocs.filterMap
    (fun capDoc => (env.getImage capDoc.pdfId capDoc.elementId).map
      (fun imgDoc => ⟨imgDoc, capDoc.content, capDoc.page, capDoc.elementId⟩))

/-- `answer_with_vision`: analyze at most 5 images (a failing vision call is
caught and skipped), attach at most 2 tables untruncated and 3 texts
truncated to 500 chars, then one synthesis call.  `none` = the synthesis
call raised. -/
def answerWithVision (env : Env) (query : PyStr) (images : List VisionImage)
    (textDocs tableDocs : List RDoc) : Option PyStr :=
  let imagesToAnalyze := images.take 5
  let imageInsights :=
    imagesToAnalyze.filterMap
      (fun img => (env.analyzeImage img.base64 query).map
        (fun visualAnswer => (img.page, visualAnswer)))
  let supportingContext :=
    (tableDocs.take 2).map (fun d => ("table", d.page, d.content))
      ++ (textDocs.take 3).map (fun d => ("text", d.page, d.content.take 500))
  env.llm (.visionSynthesis query imageInsights supportingContext)

/-- `answer_with_text_llm`: tables first (untruncated), then texts, one
synthesis call. -/
def answerWithTextLLM (env : Env) (query : PyStr)
    (textDocs tableDocs : List RDoc) : Option PyStr :=
  let tablesInfo := tableDocs.map (fun d => (d.page, d.content))
  let textsInfo := textDocs.map (fun d => (d.page, d.content))
  env.llm (.textSynthesis query tablesInfo textsInfo)

/-- `multimodal_rag_answer(query, pdf_ids, top_k)`.  The second component
records every `similarity_search` call made, as `(pdf_id, k)` pairs. -/
def multimodalRagAnswer (env : Env) (query : PyStr) (pdfIds : List String)
    (topK : Option Nat) : Except String ChatResult × List (String × Nat) :=
  let k := kOrDefault topK
  let searchTrace := pdfIds.map (fun pdfId => (pdfId, k))
  let (useVision, routed) := retrieveAndRoute env query pdfIds topK
  if useVision then
    let images := fetchImagesForVision env routed.imageCaptionDocs
    match answerWithVision env query images routed.textDocs routed.tableDocs with
    | some answer =>
      (.ok ⟨answer, prepareSourcesMM env routed "vision", "vision"⟩, searchTrace)
    | none => (.error "Multi-modal RAG failed", searchTrace)
  else
    match answerWithTextLLM env query routed.textDocs routed.tableDocs with
    | some answer =>
      (.ok ⟨answer, prepareSourcesMM env routed "text", "text"⟩, searchTrace)
    | none => (.error "Multi-modal RAG failed", searchTrace)

/-! ## The multimodal chat pipeline (`rag_service.py`,
`_chat_with_pdf_multimodal`) -/

/-- The `all_retrieved_docs` sampling loop (`k=3`, failures swallowed by
`except: pass`). -/
def sampleRetrievedDocs (env : Env) (message : PyStr) (pdfIds : List String) :
    List (RDoc × String) :=
  pdfIds.foldl
    (fun acc pdfId =>
      match env.search pdfId message 3 with
      | some docs => acc ++ docs.map (fun d => (d, pdfId))
      | none => acc)
    []

/-- `RAGService._chat_with_pdf_multimodal(message, pdf_ids, chat_history)`.
The second component records every `similarity_search` call made, as
`(pdf_id, k)` pairs; `get_pdf` validation lookups are not retrieval calls. -/
def chatWithPdfMultimodal (env : Env) (message : PyStr) (pdfIds : List String)
    (chatHistory : List Msg) : Except String ChatResult × List (String × Nat) :=
  if pdfIds.any (fun pdfId => (env.getPdf pdfId).isNone) then
    (.error "Multi-modal RAG chat failed", [])
  else if isLikelyGeneralQuestion message then
    (answerGeneral env message chatHistory, [])
  else
    let sampleTrace := pdfIds.map (fun pdfId => (pdfId, 3))
    let allRetrievedDocs := sampleRetrievedDocs env message pdfIds
    if isGeneralQuestion env message allRetrievedDocs then
      (answerGeneral env message chatHistory, sampleTrace)
    else
      let (result, mmTrace) :=
        multimodalRagAnswer env message pdfIds (some topKChunks)
      (result, sampleTrace ++ mmTrace)

/-! ## Legacy source fallback (`rag_service.py`, `_chat_with_pdf_legacy`,
lines 1004-1015) -/

/-- The final fallback of the legacy chat path: `if not sources`, list every
queried pdf with empty pages and types (name from the registry when the pdf
resolves, else the bare id). -/
def finalizeSourcesLegacy (env : Env) (sources : List Source)
    (pdfIds : List String) : List Source :=
  if sources = [] then
    pdfIds.map (fun pdfId => ⟨pdfId, (env.getPdf pdfId).getD pdfId, [], []⟩)
  else sources

/-! ## Text chunker (`text_chunker.py`, singleton parameters
`combine_text_under_n_chars=2000, new_after_n_chars=6000,
max_characters=10000`) -/

/-- `TextChunker.max_chars` of the singleton `text_chunker`. -/
def maxCharacters : Nat := 10000

/-- `TextChunker.new_chunk_threshold` of the singleton. -/
def newChunkThreshold : Nat := 6000

/-- `TextChunker.combine_threshold` of the singleton. -/
def combineThreshold : Nat := 2000

/-- One input text element of `chunk_text_elements` (the fields the chunker
reads: `content`, `page`, `is_title`; `element_id` is never read). -/
structure TElem where
  content : PyStr
  page : Nat
  isTitle : Bool
  deriving DecidableEq

/-- The running chunk buffer of `_chunk_group` (fresh uuid identifiers are
not modelled; no claim mentions them). -/
structure Chunk where
  content : PyStr
  page : Nat
  sourceCount : Nat
  hasTitle : Bool
  deriving DecidableEq

/-- An output chunk of `_finalize_chunk`. -/
structure FinalChunk where
  content : PyStr
  page : Nat
  chunkSize : Nat
  mergedCount : Nat
  deriving DecidableEq

/-- `TextChunker._finalize_chunk`. -/
def finalizeChunk (c : Chunk) : FinalChunk :=
  ⟨c.content, c.page, c.content.length, c.sourceCount⟩

/-- One iteration of the `for i, elem in enumerate(elements)` loop of
`_chunk_group` (rules 1-6). -/
def chunkGroupStep (st : List FinalChunk × Chunk) (elem : TElem) :
    List FinalChunk × Chunk :=
  let elemText := pyStrip elem.content
  if elemText = [] then st
  else
    let elemLen := elemText.length
    let cur := st.2
    let currentLen := cur.content.length
    if currentLen = 0 then
      (st.1, ⟨elemText, cur.page, 1, elem.isTitle⟩)
    else if elem.isTitle then
      (st.1 ++ [finalizeChunk cur], ⟨elemText, elem.page, 1, true⟩)
    else if maxCharacters < currentLen + elemLen + 2 then
      (st.1 ++ [finalizeChunk cur], ⟨elemText, elem.page, 1, elem.isTitle⟩)
    else
      let shouldStartNew := newChunkThreshold < currentLen
      let shouldStartNew := if elemLen < combineThreshold then false
                            else shouldStartNew
      let shouldStartNew := if cur.hasTitle ∧ currentLen < newChunkThreshold
                            then false else shouldStartNew
      if shouldStartNew then
        (st.1 ++ [finalizeChunk cur], ⟨elemText, elem.page, 1, elem.isTitle⟩)
      else
        (st.1, ⟨cur.content ++ pyOf "\n\n" ++ elemText, cur.page,
                cur.sourceCount + 1, cur.hasTitle || elem.isTitle⟩)

/-- `TextChunker._chunk_group(elements, group_key)` (the group key only names
the group and never influences the chunks). -/
def chunkGroup (elements : List TElem) : List FinalChunk :=
  match elements with
  | [] => []
  | e0 :: _ =>
    let st := elements.foldl chunkGroupStep ([], ⟨[], e0.page, 0, false⟩)
    if st.2.content ≠ [] then st.1 ++ [finalizeChunk st.2] else st.1

/-- Keys of the `_group_by_section` dict.  The f-string keys
`f"section_{n}_{title[:50]}"` / `f"page_{p}"` are injective in `(n, title)`
and `p`, so the structured key is equality-faithful. -/
inductive GroupKey where
  | section (counter : Nat) (title : PyStr)
  | page (page : Nat)
  deriving DecidableEq

/-- Append an element to a keyed group, creating the group at the end on a
fresh key (Python dict insertion-order semantics). -/
def addToGroup (groups : List (GroupKey × List TElem)) (key : GroupKey)
    (elem : TElem) : List (GroupKey × List TElem) :=
  if groups.any (fun g => g.1 = key) then
    groups.map (fun g => if g.1 = key then (g.1, g.2 ++ [elem]) else g)
  else groups ++ [(key, [elem])]

/-- `TextChunker._group_by_section(elements)`: a title opens a fresh numbered
section; non-title elements join the open section, or are grouped by page
before any section exists. -/
def groupBySection (elements : List TElem) : List (GroupKey × List TElem) :=
  let st := elements.foldl
    (fun (st : List (GroupKey × List TElem) × Option GroupKey × Nat) elem =>
      if elem.isTitle then
        let counter := st.2.2 + 1
        let key := GroupKey.section counter (elem.content.take 50)
        (addToGroup st.1 key elem, some key, counter)
      else
        match st.2.1 with
        | some currentSection =>
          (addToGroup st.1 currentSection elem, st.2.1, st.2.2)
        | none =>
          (addToGroup st.1 (GroupKey.page elem.page) elem, st.2.1, st.2.2))
    ([], none, 0)
  st.1

/-- `TextChunker.chunk_text_elements(text_elements)` of the singleton
`text_chunker`. -/
def chunkTextElements (textElements : List TElem) : List FinalChunk :=
  if textElements = [] then []
  else ((groupBySection textElements).map (fun g => chunkGroup g.2)).flatten

/-! ## Two-pass element merge (`unstructured_pdf_service.py`,
`_merge_elements`) -/

/-- One raw unstructured element as `_merge_elements` sees it: its
`metadata.page_number` (possibly absent) and an opaque tag standing for the
rest of the element. -/
structure UElem where
  pageNumber : Option Nat
  tag : Nat
  deriving DecidableEq

/-- `elem.metadata.page_number or 0` (absent and `0` both give `0`). -/
def pageOrZero (e : UElem) : Nat := e.pageNumber.getD 0

/-- `UnstructuredPDFService._merge_elements(fast_elements, hires_elements,
hires_pages)`.  Note the code keys the override on the pages the hi-res
elements actually cover (`hires_by_page`), and never reads `hiresPages`. -/
def mergeElements (fastElements hiresElements : List UElem)
    (hiresPages : List Nat) : List UElem :=
  let hiresByPageKeys := hiresElements.map pageOrZero
  let _ := hiresPages
  fastElements.filter (fun e => !(hiresByPageKeys.contains (pageOrZero e)))
    ++ hiresElements

/-! ## HTML table row chunking (`pdf_service.py`, `_chunk_html_table` and the
table branch of `_process_pdf_with_unstructured`) -/

/-- Case-insensitive literal prefix test (`pat` given lower-case). -/
def prefixCI : PyStr → PyStr → Bool
  | [], _ => true
  | _ :: _, [] => false
  | p :: ps, c :: cs => lowerChar c = p && prefixCI ps cs

/-- Consume `[^>]*>`: the characters up to and including the first `>`. -/
def splitUntilGt : PyStr → Option (PyStr × PyStr)
  | [] => none
  | c :: rest =>
    if c = '>' then some ([c], rest)
    else (splitUntilGt rest).map (fun p => (c :: p.1, p.2))

/-- Consume `.*?</tr>` (non-greedy, DOTALL, IGNORECASE): the characters up to
and including the earliest `</tr>`. -/
def findClose : PyStr → Option (PyStr × PyStr)
  | [] => none
  | c :: rest =>
    if prefixCI (pyOf "</tr>") (c :: rest) then
      some ((c :: rest).take 5, (c :: rest).drop 5)
    else (findClose rest).map (fun p => (c :: p.1, p.2))

/-- Try to match `<tr[^>]*>.*?</tr>` at the head of `s`; on success return
the match and the remaining input. -/
def tryMatchTr (s : PyStr) : Option (PyStr × PyStr) :=
  if prefixCI (pyOf "<tr") s then
    match splitUntilGt (s.drop 3) with
    | none => none
    | some (upTo, rest1) =>
      match findClose rest1 with
      | none => none
      | some (body, rest2) => some (s.take 3 ++ upTo ++ body, rest2)
  else none

/-- Left-to-right non-overlapping scan for `<tr[^>]*>.*?</tr>` (fuelled by
the input length; every successful match consumes at least one character). -/
def findRowsAux : Nat → PyStr → List PyStr
  | 0, _ => []
  | _ + 1, [] => []
  | fuel + 1, c :: rest =>
    match tryMatchTr (c :: rest) with
    | some (m, remaining) => m :: findRowsAux fuel remaining
    | none => findRowsAux fuel rest

/-- `re.findall(r"<tr[^>]*>.*?</tr>", html, DOTALL | IGNORECASE)`; its first
element is also `re.search`'s `header_row` match. -/
def findRows (html : PyStr) : List PyStr := findRowsAux html.length html

/-- The `f"<table>{chunk}</table>"` wrapper. -/
def wrapTable (s : PyStr) : PyStr := pyOf "<table>" ++ s ++ pyOf "</table>"

/-- One iteration of the `for row in rows[1:]` loop of `_chunk_html_table`:
flush the current chunk when the row would overflow `max_size` and the chunk
already holds a data row. -/
def chunkRowsStep (maxSize : Nat) (headerRow : PyStr)
    (st : List PyStr × PyStr) (row : PyStr) : List PyStr × PyStr :=
  if maxSize < st.2.length + row.length ∧ st.2 ≠ headerRow then
    (st.1 ++ [wrapTable st.2], headerRow ++ row)
  else (st.1, st.2 ++ row)

/-- `PDFService._chunk_html_table(html_content, max_size)`. -/
def chunkHtmlTable (htmlContent : PyStr) (maxSize : Nat) : List PyStr :=
  let rows := findRows htmlContent
  let headerRow := rows.headD []
  if rows.length ≤ 1 then [htmlContent]
  else
    let st := rows.tail.foldl (chunkRowsStep maxSize headerRow) ([], headerRow)
    let chunks := if st.2 ≠ [] then st.1 ++ [wrapTable st.2] else st.1
    if chunks = [] then [htmlContent] else chunks

/-- The table branch of `_process_pdf_with_unstructured`: a table longer than
2000 chars containing `"<tr>"` is split by `_chunk_html_table` with
`max_size=1500`, one indexed document per chunk; otherwise one document. -/
def tableDocContents (tableContent : PyStr) : List PyStr :=
  if 2000 < tableContent.length ∧ pyContains tableContent (pyOf "<tr>") then
    chunkHtmlTable tableContent 1500
  else [tableContent]

/-! ## Concrete fixtures used by witnesses and counterexamples -/

/-- An environment in which every collaborator call fails. -/
def envDown : Env :=
  ⟨fun _ => none, fun _ _ _ => none, fun _ => none, fun _ _ => none,
   fun _ _ => none⟩

/-- An environment in which every collaborator call succeeds; retrieval
returns a single text chunk whose `page` metadata is `0` (unknown). -/
def envHappy : Env :=
  ⟨fun _ => some "doc.pdf",
   fun pdfId _ _ => some [⟨pyOf "alpha", some "text", 0, pdfId, "e1"⟩],
   fun _ => some (pyOf "ans"), fun _ _ => some (pyOf "ia"),
   fun _ _ => some (pyOf "b64")⟩

/-- A sample retrieved text chunk with a known page. -/
def sampleDoc : RDoc := ⟨pyOf "alpha", some "text", 3, "p1", "e1"⟩

/-- A single extracted text element of 10,001 non-space characters. -/
def bigTextElem : TElem := ⟨List.replicate 10001 'a', 1, false⟩

/-- A 16,005-character chat message (estimated at 4,001 tokens). -/
def longMessage : PyStr := List.replicate 16005 'a'

/-- A 2,009-character HTML table consisting of one single `<tr>` row. -/
def oneRowTable : PyStr :=
  pyOf "<tr>" ++ List.replicate 2000 'a' ++ pyOf "</tr>"

/-- A 34-character HTML table header row. -/
def wHeader : PyStr := pyOf "<tr><th>Name</th><th>Val</th></tr>"

/-- A 68-character HTML table data row. -/
def wRow : PyStr :=
  pyOf "<tr><td>bbbbbbbbbbbbbbbbbbbbbbbbbbbbbbbbbbbbbbbbbbbbbbbbbb</td></tr>"

/-- A 2,089-character HTML table: the header row and thirty data rows. -/
def wHtml : PyStr :=
  pyOf "<table>" ++ wHeader ++ (List.replicate 30 wRow).flatten
    ++ pyOf "</table>"

/-! # Theorems -/

/-- C10: for every image element and every surrounding text context,
`should_caption_image` returns `True` — the no-context branch, the
visual-keyword branch, the parent-id branch and the default all return
`True`, so keyword selectivity never excludes an image from captioning. -/
theorem shouldCaptionImage_always_true (element : ImgElem) (contextText : PyStr) :
    shouldCaptionImage element contextText = true := by
  simp [shouldCaptionImage]

/-- C9: whenever the completion call made while summarizing older turns
fails, `summarize_conversation` returns the fixed placeholder
`"Previous conversation context"` instead of propagating the failure. -/
theorem summarizeConversation_placeholder (env : Env) (messages : List Msg)
    (h : env.llm (.summarize (conversationText messages)) = none) :
    summarizeConversation env messages = pyOf "Previous conversation context" := by
  unfold summarizeConversation
  rw [h]

/-- Witness for C9: with every completion call failing, summarizing an empty
history yields the placeholder. -/
theorem summarizeConversation_placeholder_witness :
    envDown.llm (.summarize (conversationText [])) = none ∧
    summarizeConversation envDown [] = pyOf "Previous conversation context" :=
  ⟨rfl, summarizeConversation_placeholder envDown [] rfl⟩

/-- C8: whenever the completion call made by `_is_general_question` fails,
the classifier returns `True` exactly when zero documents were retrieved,
and `False` when one or more were. -/
theorem isGeneralQuestion_failure_default (env : Env) (query : PyStr)
    (retrievedDocs : List (RDoc × String))
    (h : env.llm (classifierPrompt query retrievedDocs) = none) :
    isGeneralQuestion env query retrievedDocs = retrievedDocs.isEmpty := by
  unfold isGeneralQuestion
  unfold classifierPrompt at h
  by_cases hd : retrievedDocs.isEmpty = true
  · rw [if_pos hd] at h
    rw [if_pos hd, h, hd]
  · rw [if_neg hd] at h
    rw [if_neg hd]
    rw [Bool.not_eq_true] at hd
    simp only [h, hd]

/-- Witness for C8: with the completion service down and one retrieved
document, the classifier returns `False`. -/
theorem isGeneralQuestion_failure_default_witness :
    envDown.llm (classifierPrompt (pyOf "q") [(sampleDoc, "p1")]) = none ∧
    isGeneralQuestion envDown (pyOf "q") [(sampleDoc, "p1")] = false :=
  ⟨rfl,
   (isGeneralQuestion_failure_default envDown (pyOf "q") [(sampleDoc, "p1")]
     rfl).trans rfl⟩

/-- C4 counterexample: with an empty history and a 16,005-character message
the per-claim condition (token estimate 4,001 > 4,000) demands
`needs_summary = true`, but `_manage_context_window` returns `false`: the
empty-history early return ignores the token estimate of the new message. -/
theorem manageContextWindow_empty_history_counterexample :
    (manageContextWindow [] longMessage).2 = false ∧
    specNeedsSummary [] longMessage = true := by
  constructor
  · rfl
  · have h : totalEstimatedTokens [] longMessage = 4001 := by
      unfold totalEstimatedTokens estimateTokens longMessage
      rw [List.foldl_nil, List.length_replicate]
    unfold specNeedsSummary
    rw [h]
    decide

/-- C4 (amended): for every non-empty chat history, `needs_summary` is true
exactly when the history has at least 8 messages or the summed
characters-div-4 token estimate of history plus new message exceeds 4,000,
and in that case the last 10 messages are returned, else the history
unchanged; an empty history short-circuits to `([], false)` regardless of
the new message. -/
theorem manageContextWindow_spec (chatHistory : List Msg) (currentMessage : PyStr)
    (hne : chatHistory ≠ []) :
    (manageContextWindow chatHistory currentMessage).2 =
      specNeedsSummary chatHistory currentMessage ∧
    (manageContextWindow chatHistory currentMessage).1 =
      (if specNeedsSummary chatHistory currentMessage then lastN 10 chatHistory
       else chatHistory) := by
  by_cases h : 8 ≤ chatHistory.length ∨
      4000 < totalEstimatedTokens chatHistory currentMessage
  · simp [manageContextWindow, specNeedsSummary, summarizeThreshold,
      maxContextTokens, maxContextMessages, hne, h]
  · simp [manageContextWindow, specNeedsSummary, summarizeThreshold,
      maxContextTokens, maxContextMessages, hne, h]

/-- Witness for C4 (amended): a one-message history below both thresholds is
returned unchanged with `needs_summary = false`. -/
theorem manageContextWindow_spec_witness :
    ([⟨pyOf "user", pyOf "hi"⟩] : List Msg) ≠ [] ∧
    ((manageContextWindow [⟨pyOf "user", pyOf "hi"⟩] (pyOf "hello")).2 =
      specNeedsSummary [⟨pyOf "user", pyOf "hi"⟩] (pyOf "hello") ∧
     (manageContextWindow [⟨pyOf "user", pyOf "hi"⟩] (pyOf "hello")).1 =
      (if specNeedsSummary [⟨pyOf "user", pyOf "hi"⟩] (pyOf "hello") then
        lastN 10 [⟨pyOf "user", pyOf "hi"⟩]
       else [⟨pyOf "user", pyOf "hi"⟩])) :=
  ⟨by decide, manageContextWindow_spec [⟨pyOf "user", pyOf "hi"⟩] (pyOf "hello")
    (by decide)⟩

/-- C5 counterexample: a grounded (mode `"text"`) multimodal answer over the
queried document list `["p1"]`, where the only retrieved unit has page `0`,
returns an empty source list — `multimodal_rag_answer` has no fallback to
listing the queried documents. -/
theorem multimodalRagAnswer_empty_sources_counterexample :
    (multimodalRagAnswer envHappy (pyOf "q") ["p1"] (some 8)).1 =
      Except.ok ⟨pyOf "ans", [], "text"⟩ := by
  rfl

/-- C5 (amended): only the legacy chat path guarantees a non-empty source
list: whenever documents were queried, its final fallback lists every queried
document (with empty pages and kinds) if no source was extracted. -/
theorem finalizeSourcesLegacy_nonempty (env : Env) (sources : List Source)
    (pdfIds : List String) (h : pdfIds ≠ []) :
    finalizeSourcesLegacy env sources pdfIds ≠ [] := by
  unfold finalizeSourcesLegacy
  split
  · simp [h]
  · next hs => exact hs

/-- Witness for C5 (amended): no extracted sources, one queried document,
non-empty fallback list. -/
theorem finalizeSourcesLegacy_nonempty_witness :
    (["p1"] : List String) ≠ [] ∧ finalizeSourcesLegacy envDown [] ["p1"] ≠ [] :=
  ⟨by decide, finalizeSourcesLegacy_nonempty envDown [] ["p1"] (by decide)⟩

/-- C7 helper: an element's page is covered by the hi-res pass exactly when
it is a qualifying page, whenever the hi-res elements lie exactly on the
qualifying pages. -/
theorem hiresCoverage_eq_qualifying (hiresElements : List UElem)
    (qualifyingPages : List Nat)
    (h1 : ∀ e ∈ hiresElements, pageOrZero e ∈ qualifyingPages)
    (h2 : ∀ p ∈ qualifyingPages, ∃ e ∈ hiresElements, pageOrZero e = p)
    (p : Nat) :
    (hiresElements.map pageOrZero).contains p = qualifyingPages.contains p := by
  simp only [List.contains, List.elem_eq_mem, decide_eq_decide]
  constructor
  · intro hm
    rcases List.mem_map.1 hm with ⟨e, he, hpe⟩
    exact hpe ▸ h1 e he
  · intro hq
    rcases h2 p hq with ⟨e, he, hpe⟩
    exact List.mem_map.2 ⟨e, he, hpe⟩

/-- C7: when the hi-res elements lie exactly on the qualifying pages (each
hi-res element is on a qualifying page, each qualifying page received at
least one hi-res element), the merged list is the fast-scan elements of the
non-qualifying pages followed by all hi-res elements: hi-res fully replaces
fast-scan for every page it covers. -/
theorem mergeElements_spec (fastElements hiresElements : List UElem)
    (qualifyingPages : List Nat)
    (h1 : ∀ e ∈ hiresElements, pageOrZero e ∈ qualifyingPages)
    (h2 : ∀ p ∈ qualifyingPages, ∃ e ∈ hiresElements, pageOrZero e = p) :
    mergeElements fastElements hiresElements qualifyingPages =
      fastElements.filter
        (fun e => !(qualifyingPages.contains (pageOrZero e))) ++ hiresElements := by
  show (fastElements.filter
      (fun e => !((hiresElements.map pageOrZero).contains (pageOrZero e))))
      ++ hiresElements = _
  congr 1
  apply List.filter_congr
  intro e _
  rw [hiresCoverage_eq_qualifying hiresElements qualifyingPages h1 h2]

/-- Witness for C7: fast-scan covers pages 1 and 2, hi-res re-extracts the
qualifying page 2; the merge keeps the fast element of page 1 and the hi-res
element of page 2. -/
theorem mergeElements_spec_witness :
    (∀ e ∈ [(⟨some 2, 2⟩ : UElem)], pageOrZero e ∈ [2]) ∧
    (∀ p ∈ [2], ∃ e ∈ [(⟨some 2, 2⟩ : UElem)], pageOrZero e = p) ∧
    mergeElements [⟨some 1, 0⟩, ⟨some 2, 1⟩] [⟨some 2, 2⟩] [2] =
      ([⟨some 1, 0⟩, ⟨some 2, 1⟩] : List UElem).filter
        (fun e => !(([2] : List Nat).contains (pageOrZero e)))
        ++ [⟨some 2, 2⟩] :=
  ⟨by decide, by decide,
   mergeElements_spec [⟨some 1, 0⟩, ⟨some 2, 1⟩] [⟨some 2, 2⟩] [2]
     (by decide) (by decide)⟩

/-- C1 helper: the caption accumulator of the per-result partition loop. -/
theorem partitionDocs_captions (docs : List RDoc) (acc : Routed) :
    (partitionDocs docs acc).imageCaptionDocs =
      acc.imageCaptionDocs ++ docs.filter (fun d => docType d = "image_caption") := by
  induction docs generalizing acc with
  | nil => simp [partitionDocs]
  | cons d rest ih =>
    show (partitionDocs rest _).imageCaptionDocs = _
    rw [ih]
    by_cases h1 : docType d = "image_caption"
    · simp [h1, List.filter_cons]
    · by_cases h2 : docType d = "table"
      · simp [h1, h2, List.filter_cons]
      · by_cases h3 : docType d = "text"
        · simp [h1, h2, h3, List.filter_cons]
        · simp [h1, h2, h3, List.filter_cons]

/-- C1 helper: the captions accumulated over the whole `pdf_ids` loop are
the captions of every successful per-document retrieval, in order. -/
theorem retrieveAll_captions (env : Env) (query : PyStr) (k : Nat)
    (pdfIds : List String) (acc : Routed) :
    (retrieveAll env query k pdfIds acc).imageCaptionDocs =
      acc.imageCaptionDocs ++ pdfIds.flatMap
        (fun pdfId =>
          match env.search pdfId query k with
          | none => []
          | some docs => docs.filter (fun d => docType d = "image_caption")) := by
  induction pdfIds generalizing acc with
  | nil => simp [retrieveAll]
  | cons pdfId rest ih =>
    unfold retrieveAll
    cases hs : env.search pdfId query k with
    | none => rw [ih]; simp [hs]
    | some docs =>
      rw [ih, partitionDocs_captions]
      simp [hs]

/-- C1: the router's `use_vision` flag is true iff at least one image-caption
unit appears among the top-K retrieval results of at least one queried
document — a single global decision over the query's whole document set. -/
theorem retrieveAndRoute_useVision_iff (env : Env) (query : PyStr)
    (pdfIds : List String) (k : Option Nat) :
    (retrieveAndRoute env query pdfIds k).1 = true ↔
      ∃ pdfId ∈ pdfIds, ∃ docs,
        env.search pdfId query (kOrDefault k) = some docs ∧
        ∃ d ∈ docs, docType d = "image_caption" := by
  unfold retrieveAndRoute
  simp only [decide_eq_true_eq]
  rw [List.length_pos_iff_exists_mem]
  constructor
  · rintro ⟨d, hd⟩
    rw [retrieveAll_captions] at hd
    simp only [List.nil_append, List.mem_flatMap] at hd
    rcases hd with ⟨pdfId, hpdf, hmem⟩
    cases hs : env.search pdfId query (kOrDefault k) with
    | none => rw [hs] at hmem; simp at hmem
    | some docs =>
      rw [hs] at hmem
      rw [List.mem_filter] at hmem
      exact ⟨pdfId, hpdf, docs, hs, d, hmem.1, by simpa using hmem.2⟩
  · rintro ⟨pdfId, hpdf, docs, hs, d, hd, ht⟩
    refine ⟨d, ?_⟩
    rw [retrieveAll_captions]
    simp only [List.nil_append, List.mem_flatMap]
    refine ⟨pdfId, hpdf, ?_⟩
    rw [hs]
    exact List.mem_filter.2 ⟨hd, by simpa using ht⟩

/-- C6 helper: every successful general-knowledge answer carries an empty
source list. -/
theorem answerGeneral_ok_sources (env : Env) (message : PyStr)
    (chatHistory : List Msg) (r : ChatResult)
    (h : answerGeneral env message chatHistory = .ok r) : r.sources = [] := by
  simp only [answerGeneral] at h
  revert h
  split
  · intro h
    cases h
    rfl
  · intro h
    cases h

/-- C6: for every query matching the fast general-question heuristic, the
multimodal chat pipeline issues no retrieval call (the search trace is
empty) and any response it returns has an empty source list. -/
theorem fastGeneralHeuristic_no_retrieval (env : Env) (message : PyStr)
    (pdfIds : List String) (chatHistory : List Msg)
    (h : isLikelyGeneralQuestion message = true) :
    (chatWithPdfMultimodal env message pdfIds chatHistory).2 = [] ∧
    ∀ r, (chatWithPdfMultimodal env message pdfIds chatHistory).1 = .ok r →
      r.sources = [] := by
  unfold chatWithPdfMultimodal
  by_cases hv : (pdfIds.any fun pdfId => (env.getPdf pdfId).isNone) = true
  · rw [if_pos hv]
    exact ⟨rfl, fun r hr => by cases hr⟩
  · rw [if_neg hv, if_pos h]
    exact ⟨rfl, fun r hr => answerGeneral_ok_sources env message chatHistory r hr⟩

/-- Witness for C6: the query `"what is a neural network?"` matches the
heuristic; with a healthy environment, the pipeline answers with no search
call and empty sources. -/
theorem fastGeneralHeuristic_no_retrieval_witness :
    isLikelyGeneralQuestion (pyOf "what is a neural network?") = true ∧
    ((chatWithPdfMultimodal envHappy (pyOf "what is a neural network?") ["p1"]
        []).2 = [] ∧
     ∀ r, (chatWithPdfMultimodal envHappy (pyOf "what is a neural network?")
        ["p1"] []).1 = .ok r → r.sources = []) :=
  ⟨by decide,
   fastGeneralHeuristic_no_retrieval envHappy (pyOf "what is a neural network?")
     ["p1"] [] (by decide)⟩

/-- C2 helper: `'a'` is not whitespace, so `dropWhile` keeps a run of `'a'`s. -/
theorem dropWhile_replicate_a (n : Nat) :
    List.dropWhile isPySpace (List.replicate n 'a') = List.replicate n 'a' := by
  cases n with
  | zero => rfl
  | succ m =>
    rw [List.replicate_succ, List.dropWhile_cons]
    have h : isPySpace 'a' = false := by decide
    rw [h]
    simp

/-- C2 helper: stripping a run of `'a'`s is the identity. -/
theorem pyStrip_replicate_a (n : Nat) :
    pyStrip (List.replicate n 'a') = List.replicate n 'a' := by
  unfold pyStrip
  rw [dropWhile_replicate_a, List.reverse_replicate, dropWhile_replicate_a,
    List.reverse_replicate]

/-- C2 helper: chunking a single non-title element whose content survives
stripping yields exactly one chunk carrying that content unchanged. -/
theorem chunkTextElements_single (s : PyStr) (hs : pyStrip s = s)
    (hne : s ≠ []) (p : Nat) :
    chunkTextElements [⟨s, p, false⟩] = [⟨s, p, s.length, 1⟩] := by
  simp [chunkTextElements, groupBySection, addToGroup, chunkGroup,
    chunkGroupStep, finalizeChunk, hs, hne]

/-- C2: `chunk_text_elements` on a single 10,001-character text element emits
one chunk of 10,001 characters — above the `max_characters = 10000` hard cap
the chunker's own documentation promises ("Hard split at max_characters"):
an element longer than the cap is never split. -/
theorem chunkTextElements_exceeds_hard_cap :
    (chunkTextElements [bigTextElem]).map (fun c => c.chunkSize) = [10001] ∧
    maxCharacters < 10001 := by
  constructor
  · have hne : List.replicate 10001 'a' ≠ [] := by
      intro h
      have hl := congrArg List.length h
      rw [List.length_replicate] at hl
      simp at hl
    have hsingle :=
      chunkTextElements_single (List.replicate 10001 'a')
        (pyStrip_replicate_a 10001) hne 1
    show (chunkTextElements [⟨List.replicate 10001 'a', 1, false⟩]).map
        (fun c => c.chunkSize) = [10001]
    rw [hsingle, List.map_cons, List.map_nil]
    dsimp only
    rw [List.length_replicate]
  · decide

/-- C3 helper: the `[^>]*>` consumer always returns a non-empty consumed
segment. -/
theorem splitUntilGt_fst_ne_nil :
    ∀ (s a b : PyStr), splitUntilGt s = some (a, b) → a ≠ [] := by
  intro s
  induction s with
  | nil => intro a b h; simp [splitUntilGt] at h
  | cons c rest ih =>
    intro a b h
    unfold splitUntilGt at h
    split at h
    · cases h
      simp
    · cases hs : splitUntilGt rest with
      | none => rw [hs] at h; cases h
      | some p =>
        rw [hs] at h
        cases h
        simp

/-- C3 helper: a successful `<tr[^>]*>.*?</tr>` match is non-empty. -/
theorem tryMatchTr_fst_ne_nil (s m r : PyStr) (h : tryMatchTr s = some (m, r)) :
    m ≠ [] := by
  unfold tryMatchTr at h
  by_cases hp : prefixCI (pyOf "<tr") s = true
  · rw [if_pos hp] at h
    cases hsg : splitUntilGt (s.drop 3) with
    | none => rw [hsg] at h; cases h
    | some p =>
      obtain ⟨upTo, rest1⟩ := p
      rw [hsg] at h
      dsimp only at h
      cases hfc : findClose rest1 with
      | none => rw [hfc] at h; cases h
      | some q =>
        obtain ⟨body, rest2⟩ := q
        rw [hfc] at h
        cases h
        have hup : upTo ≠ [] := splitUntilGt_fst_ne_nil _ _ _ hsg
        simp [List.append_eq_nil]
        intro _ h2
        exact absurd h2 hup
  · rw [if_neg hp] at h
    cases h

/-- C3 helper: every row the scanner returns is non-empty. -/
theorem findRowsAux_ne_nil (fuel : Nat) :
    ∀ (s : PyStr), ∀ m ∈ findRowsAux fuel s, m ≠ [] := by
  induction fuel with
  | zero => intro s m hm; simp [findRowsAux] at hm
  | succ f ih =>
    intro s m hm
    cases s with
    | nil => simp [findRowsAux] at hm
    | cons c rest =>
      unfold findRowsAux at hm
      cases ht : tryMatchTr (c :: rest) with
      | none => rw [ht] at hm; exact ih rest m hm
      | some pr =>
        obtain ⟨mm, remaining⟩ := pr
        rw [ht] at hm
        rcases List.mem_cons.1 hm with h1 | h2
        · exact h1 ▸ tryMatchTr_fst_ne_nil _ _ _ ht
        · exact ih remaining m h2

/-- C3 helper: the row-accumulation loop of `_chunk_html_table` preserves the
invariant that every flushed chunk is a wrapped buffer that starts with the
header row and fits the budget, and that the running buffer starts with the
header row and fits the budget — provided the header plus any single row fits
the budget. -/
theorem chunkRows_foldl_inv (maxSize : Nat) (header : PyStr)
    (rows : List PyStr)
    (hrows : ∀ r ∈ rows, header.length + r.length ≤ maxSize)
    (st : List PyStr × PyStr)
    (hst1 : ∀ c ∈ st.1,
      ∃ b t, c = wrapTable b ∧ b = header ++ t ∧ b.length ≤ maxSize)
    (hst2 : (∃ t, st.2 = header ++ t) ∧ st.2.length ≤ maxSize) :
    (∀ c ∈ (rows.foldl (chunkRowsStep maxSize header) st).1,
      ∃ b t, c = wrapTable b ∧ b = header ++ t ∧ b.length ≤ maxSize) ∧
    (∃ t, (rows.foldl (chunkRowsStep maxSize header) st).2 = header ++ t) ∧
    (rows.foldl (chunkRowsStep maxSize header) st).2.length ≤ maxSize := by
  induction rows generalizing st with
  | nil => exact ⟨hst1, hst2⟩
  | cons r rest ih =>
    rw [List.foldl_cons]
    have hr0 : header.length + r.length ≤ maxSize :=
      hrows r (List.mem_cons_self r rest)
    apply ih (fun x hx => hrows x (List.mem_cons_of_mem r hx))
    · -- flushed chunks after one step
      unfold chunkRowsStep
      by_cases hc : maxSize < st.2.length + r.length ∧ st.2 ≠ header
      · rw [if_pos hc]
        intro c hcmem
        rcases List.mem_append.1 hcmem with hold | hnew
        · exact hst1 c hold
        · rcases List.mem_singleton.1 hnew with rfl
          exact ⟨st.2, hst2.1.choose, rfl, hst2.1.choose_spec, hst2.2⟩
      · rw [if_neg hc]
        exact hst1
    · -- running buffer after one step
      unfold chunkRowsStep
      by_cases hc : maxSize < st.2.length + r.length ∧ st.2 ≠ header
      · rw [if_pos hc]
        refine ⟨⟨r, rfl⟩, ?_⟩
        rw [List.length_append]
        exact hr0
      · rw [if_neg hc]
        constructor
        · rcases hst2.1 with ⟨t, ht⟩
          exact ⟨t ++ r, by rw [ht, List.append_assoc]⟩
        · rcases not_and_or.mp hc with h1 | h2
          · rw [List.length_append]
            omega
          · rw [not_not] at h2
            rw [h2, List.length_append]
            exact hr0

/-- C3 helper: `findRowsAux` returns nothing on empty input. -/
theorem findRowsAux_nil_eq (fuel : Nat) : findRowsAux fuel [] = [] := by
  cases fuel <;> rfl

/-- C3 helper: the `[^>]*>` consumer splits its input. -/
theorem splitUntilGt_append_eq :
    ∀ (s a b : PyStr), splitUntilGt s = some (a, b) → a ++ b = s := by
  intro s
  induction s with
  | nil => intro a b h; simp [splitUntilGt] at h
  | cons c rest ih =>
    intro a b h
    unfold splitUntilGt at h
    split at h
    · next hc =>
      cases h
      simp
    · cases hs : splitUntilGt rest with
      | none => rw [hs] at h; cases h
      | some p =>
        rw [hs] at h
        cases h
        rw [List.cons_append, ih p.1 p.2 hs]

/-- C3 helper: the `.*?</tr>` consumer splits its input. -/
theorem findClose_append_eq :
    ∀ (s a b : PyStr), findClose s = some (a, b) → a ++ b = s := by
  intro s
  induction s with
  | nil => intro a b h; simp [findClose] at h
  | cons c rest ih =>
    intro a b h
    unfold findClose at h
    split at h
    · cases h
      exact List.take_append_drop 5 (c :: rest)
    · cases hs : findClose rest with
      | none => rw [hs] at h; cases h
      | some p =>
        rw [hs] at h
        cases h
        rw [List.cons_append, ih p.1 p.2 hs]

/-- C3 helper: a successful `<tr[^>]*>.*?</tr>` match splits its input. -/
theorem tryMatchTr_append_eq (s m r : PyStr) (h : tryMatchTr s = some (m, r)) :
    m ++ r = s := by
  unfold tryMatchTr at h
  by_cases hp : prefixCI (pyOf "<tr") s = true
  · rw [if_pos hp] at h
    cases hsg : splitUntilGt (s.drop 3) with
    | none => rw [hsg] at h; cases h
    | some p =>
      obtain ⟨upTo, rest1⟩ := p
      rw [hsg] at h
      dsimp only at h
      cases hfc : findClose rest1 with
      | none => rw [hfc] at h; cases h
      | some q =>
        obtain ⟨body, rest2⟩ := q
        rw [hfc] at h
        cases h
        have h1 : upTo ++ rest1 = s.drop 3 := splitUntilGt_append_eq _ _ _ hsg
        have h2 : body ++ r = rest1 := findClose_append_eq _ _ _ hfc
        calc (s.take 3 ++ upTo ++ body) ++ r
            = s.take 3 ++ (upTo ++ (body ++ r)) := by
              simp [List.append_assoc]
          _ = s.take 3 ++ (upTo ++ rest1) := by rw [h2]
          _ = s.take 3 ++ s.drop 3 := by rw [h1]
          _ = s := List.take_append_drop 3 s
  · rw [if_neg hp] at h
    cases h

/-- C3 helper: no match on empty input. -/
theorem tryMatchTr_nil_eq : tryMatchTr [] = none := rfl

/-- C3 helper: the step equation of the fuelled scanner on a cons cell. -/
theorem findRowsAux_cons_eq (fuel : Nat) (c : Char) (rest : PyStr) :
    findRowsAux (fuel + 1) (c :: rest) =
      match tryMatchTr (c :: rest) with
      | some (m, remaining) => m :: findRowsAux fuel remaining
      | none => findRowsAux fuel rest := rfl

/-- C3 helper: the scanner's result does not depend on the fuel, as long as
the fuel covers the input length (`findRows s` uses `s.length`). -/
theorem findRows_eq_of_le :
    ∀ (fuel : Nat) (s : PyStr), s.length ≤ fuel →
      findRowsAux fuel s = findRows s := by
  intro fuel
  induction fuel using Nat.strong_induction_on with
  | _ fuel ih =>
    intro s hs
    cases fuel with
    | zero =>
      have hnil : s = [] := List.eq_nil_of_length_eq_zero (Nat.le_zero.mp hs)
      subst hnil
      rfl
    | succ f =>
      cases s with
      | nil => rw [findRowsAux_nil_eq]; rfl
      | cons c rest =>
        rw [List.length_cons] at hs
        unfold findRows
        rw [List.length_cons, findRowsAux_cons_eq f, findRowsAux_cons_eq rest.length]
        cases ht : tryMatchTr (c :: rest) with
        | none =>
          dsimp only
          have h1 : rest.length ≤ f := by omega
          rw [ih f (Nat.lt_succ_self f) rest h1]
          rfl
        | some pr =>
          obtain ⟨m, r⟩ := pr
          dsimp only
          have hmne : m ≠ [] := tryMatchTr_fst_ne_nil _ _ _ ht
          have hsplit : m ++ r = c :: rest := tryMatchTr_append_eq _ _ _ ht
          have hm1 : 1 ≤ m.length := by
            cases m with
            | nil => exact absurd rfl hmne
            | cons _ _ => simp
          have hr : r.length ≤ rest.length := by
            have hlen := congrArg List.length hsplit
            rw [List.length_append, List.length_cons] at hlen
            omega
          have hrf : r.length ≤ f := by omega
          rw [ih f (Nat.lt_succ_self f) r hrf,
            ih rest.length (Nat.lt_succ_of_le (by omega)) r hr]

/-- C3 helper: the scanner skips a character that starts no match. -/
theorem findRows_skip (c : Char) (rest : PyStr)
    (h : tryMatchTr (c :: rest) = none) :
    findRows (c :: rest) = findRows rest := by
  unfold findRows
  rw [List.length_cons, findRowsAux_cons_eq, h]

/-- C3 helper: the scanner emits a successful match and continues after it. -/
theorem findRows_match_eq (s m r : PyStr) (h : tryMatchTr s = some (m, r)) :
    findRows s = m :: findRows r := by
  have hs : s ≠ [] := by
    intro hx
    subst hx
    rw [tryMatchTr_nil_eq] at h
    cases h
  obtain ⟨c, rest, rfl⟩ := List.exists_cons_of_ne_nil hs
  unfold findRows
  rw [List.length_cons, findRowsAux_cons_eq, h]
  dsimp only
  have hmne : m ≠ [] := tryMatchTr_fst_ne_nil _ _ _ h
  have hsplit : m ++ r = c :: rest := tryMatchTr_append_eq _ _ _ h
  have hm1 : 1 ≤ m.length := by
    cases m with
    | nil => exact absurd rfl hmne
    | cons _ _ => simp
  have hr : r.length ≤ rest.length := by
    have hlen := congrArg List.length hsplit
    rw [List.length_append, List.length_cons] at hlen
    omega
  rw [findRows_eq_of_le rest.length r hr]
  rfl

/-- C3 helper: `"</tr>"` does not begin at an `'a'`. -/
theorem prefixCI_close_cons_a (y : PyStr) :
    prefixCI (pyOf "</tr>") ('a' :: y) = false := rfl

/-- C3 helper: `.*?</tr>` consumes a run of `'a'`s up to the closing tag. -/
theorem findClose_replicate_a (n : Nat) :
    findClose (List.replicate n 'a' ++ pyOf "</tr>") =
      some (List.replicate n 'a' ++ pyOf "</tr>", []) := by
  induction n with
  | zero => rfl
  | succ k ih =>
    have hstep : List.replicate (k + 1) 'a' ++ pyOf "</tr>" =
        'a' :: (List.replicate k 'a' ++ pyOf "</tr>") := by
      rw [List.replicate_succ, List.cons_append]
    rw [hstep]
    unfold findClose
    rw [prefixCI_close_cons_a]
    simp only [Bool.false_eq_true, if_false]
    rw [ih]
    rfl

/-- C3 helper: the one-row table, exposed as a cons cell. -/
theorem oneRowTable_cons :
    oneRowTable =
      '<' :: 't' :: 'r' :: '>' :: (List.replicate 2000 'a' ++ pyOf "</tr>") := by
  unfold oneRowTable
  rw [List.append_assoc]
  rfl

/-- C3 helper: the whole one-row table is a single regex match. -/
theorem tryMatchTr_oneRowTable : tryMatchTr oneRowTable = some (oneRowTable, []) := by
  rw [oneRowTable_cons]
  unfold tryMatchTr
  rw [if_pos (show prefixCI (pyOf "<tr")
    ('<' :: 't' :: 'r' :: '>' :: (List.replicate 2000 'a' ++ pyOf "</tr>")) = true
    from rfl)]
  have hdrop : List.drop 3
      ('<' :: 't' :: 'r' :: '>' :: (List.replicate 2000 'a' ++ pyOf "</tr>")) =
      '>' :: (List.replicate 2000 'a' ++ pyOf "</tr>") := rfl
  rw [hdrop]
  have hsg : splitUntilGt ('>' :: (List.replicate 2000 'a' ++ pyOf "</tr>")) =
      some (['>'], List.replicate 2000 'a' ++ pyOf "</tr>") := rfl
  rw [hsg]
  dsimp only
  rw [findClose_replicate_a 2000]
  dsimp only
  rw [show List.take 3
      ('<' :: 't' :: 'r' :: '>' :: (List.replicate 2000 'a' ++ pyOf "</tr>")) =
      ['<', 't', 'r'] from rfl]
  rfl

/-- C3 helper: the scanner finds exactly one row in the one-row table. -/
theorem findRows_oneRowTable : findRows oneRowTable = [oneRowTable] := by
  rw [findRows_match_eq _ _ _ tryMatchTr_oneRowTable]
  rfl

/-- C3 helper: a list is a substring of itself extended on the right. -/
theorem isPrefixOf_append_self (l t : List Char) : l.isPrefixOf (l ++ t) = true := by
  induction l with
  | nil => simp
  | cons a rest ih =>
    rw [List.cons_append, List.isPrefixOf_cons₂_self, ih]

/-- C3 helper: Python `in` holds when the pattern is a prefix. -/
theorem pyContains_of_isPrefixOf (s sub : PyStr) (h : sub.isPrefixOf s = true) :
    pyContains s sub = true := by
  cases s with
  | nil => exact h
  | cons c rest =>
    unfold pyContains
    rw [h]
    rfl

/-- C3 helper: Python `in` is stable under prepending text. -/
theorem pyContains_append_left (pre s sub : PyStr)
    (h : pyContains s sub = true) : pyContains (pre ++ s) sub = true := by
  induction pre with
  | nil => simpa using h
  | cons c rest ih =>
    rw [List.cons_append]
    unfold pyContains
    rw [ih]
    simp

/-- C3 helper: the one-row table is 2,009 characters long. -/
theorem oneRowTable_length : oneRowTable.length = 2009 := by
  rw [oneRowTable_cons]
  simp only [List.length_cons, List.length_append, List.length_replicate]
  rfl

/-- C3 helper: the one-row table contains the `"<tr>"` marker. -/
theorem oneRowTable_contains_tr : pyContains oneRowTable (pyOf "<tr>") = true := by
  apply pyContains_of_isPrefixOf
  rw [oneRowTable_cons]
  rfl

/-- C3 helper: upload-time processing emits the one-row table unchanged. -/
theorem tableDocContents_oneRowTable :
    tableDocContents oneRowTable = [oneRowTable] := by
  unfold tableDocContents
  rw [if_pos ⟨by rw [oneRowTable_length]; omega, oneRowTable_contains_tr⟩]
  simp only [chunkHtmlTable]
  rw [findRows_oneRowTable]
  simp

/-- C3 counterexample: a 2,009-character table consisting of one single row
is longer than 2000 chars and contains `"<tr>"`, yet upload-time processing
emits exactly one table unit (unchanged), not more than one: the row
splitter returns single-row tables as-is. -/
theorem tableDocContents_single_row_counterexample :
    2000 < oneRowTable.length ∧ pyContains oneRowTable (pyOf "<tr>") = true ∧
    (tableDocContents oneRowTable).length = 1 := by
  refine ⟨?_, oneRowTable_contains_tr, ?_⟩
  · rw [oneRowTable_length]
    omega
  · rw [tableDocContents_oneRowTable]
    rfl

/-- C3 (amended): a >2000-char table containing `"<tr>"` is routed through
the row splitter; with at most one row match it comes back as the single
unchanged unit, and with at least two row matches — provided the header row
plus any single row fits the 1500-char budget — every emitted unit is the
duplicated header row followed by row content inside a `<table>` wrapper,
of length at most 1500 plus the 15 wrapper characters. -/
theorem chunkHtmlTable_spec (html : PyStr)
    (h2000 : 2000 < html.length)
    (htr : pyContains html (pyOf "<tr>") = true) :
    ((findRows html).length ≤ 1 → tableDocContents html = [html]) ∧
    (2 ≤ (findRows html).length →
      (∀ r ∈ findRows html,
        ((findRows html).headD []).length + r.length ≤ 1500) →
      ∀ c ∈ tableDocContents html,
        (∃ t, c = pyOf "<table>" ++ (findRows html).headD [] ++ t) ∧
        c.length ≤ 1515) := by
  have htd : tableDocContents html = chunkHtmlTable html 1500 := by
    unfold tableDocContents
    rw [if_pos ⟨h2000, htr⟩]
  constructor
  · intro hle
    rw [htd]
    simp only [chunkHtmlTable]
    rw [if_pos hle]
  · intro h2 hrows c hc
    rw [htd] at hc
    simp only [chunkHtmlTable] at hc
    rw [if_neg (by omega)] at hc
    have hrowsne : findRows html ≠ [] := by
      intro hx
      rw [hx] at h2
      simp at h2
    have hheadmem : (findRows html).headD [] ∈ findRows html := by
      cases hr : findRows html with
      | nil => exact absurd hr hrowsne
      | cons a l => simp
    have hheaderne : (findRows html).headD [] ≠ [] :=
      findRowsAux_ne_nil html.length html _ hheadmem
    have hheader_le : ((findRows html).headD []).length ≤ 1500 := by
      have := hrows _ hheadmem
      omega
    have hinv := chunkRows_foldl_inv 1500 ((findRows html).headD [])
      (findRows html).tail
      (fun r hr => hrows r (List.mem_of_mem_tail hr))
      ([], (findRows html).headD [])
      (by intro c hcx; simp at hcx)
      ⟨⟨[], (List.append_nil _).symm⟩, hheader_le⟩
    rcases hinv with ⟨hall, ⟨t0, hcur⟩, hcurlen⟩
    have hstne :
        ((findRows html).tail.foldl
          (chunkRowsStep 1500 ((findRows html).headD []))
          ([], (findRows html).headD [])).2 ≠ [] := by
      rw [hcur]
      intro hx
      rcases List.append_eq_nil.mp hx with ⟨hh, _⟩
      exact hheaderne hh
    rw [if_pos hstne] at hc
    rw [if_neg (by simp)] at hc
    rcases List.mem_append.1 hc with hold | hnew
    · rcases hall c hold with ⟨b, t, hcw, hbt, hble⟩
      constructor
      · refine ⟨t ++ pyOf "</table>", ?_⟩
        rw [hcw, hbt]
        unfold wrapTable
        simp [List.append_assoc]
      · rw [hcw]
        unfold wrapTable
        rw [List.length_append, List.length_append]
        have h7 : (pyOf "<table>").length = 7 := by decide
        have h8 : (pyOf "</table>").length = 8 := by decide
        omega
    · rcases List.mem_singleton.1 hnew with rfl
      constructor
      · refine ⟨t0 ++ pyOf "</table>", ?_⟩
        rw [hcur]
        unfold wrapTable
        simp [List.append_assoc]
      · unfold wrapTable
        rw [List.length_append, List.length_append]
        have h7 : (pyOf "<table>").length = 7 := by decide
        have h8 : (pyOf "</table>").length = 8 := by decide
        omega

/-- C3 helper: a match starting at the witness header consumes exactly the
header. -/
theorem tryMatchTr_wHeader (y : PyStr) :
    tryMatchTr (wHeader ++ y) = some (wHeader, y) := rfl

/-- C3 helper: a match starting at the witness data row consumes exactly the
row. -/
theorem tryMatchTr_wRow (y : PyStr) :
    tryMatchTr (wRow ++ y) = some (wRow, y) := rfl

/-- C3 helper: the closing `"</table>"` holds no row. -/
theorem findRows_close_table : findRows (pyOf "</table>") = [] := rfl

/-- C3 helper: scanning the flattened data rows followed by the closing tag
yields exactly the data rows. -/
theorem findRows_wRows (n : Nat) :
    findRows ((List.replicate n wRow).flatten ++ pyOf "</table>") =
      List.replicate n wRow := by
  induction n with
  | zero =>
    show findRows ([] ++ pyOf "</table>") = []
    rw [List.nil_append, findRows_close_table]
  | succ k ih =>
    have hstep : (List.replicate (k + 1) wRow).flatten ++ pyOf "</table>" =
        wRow ++ ((List.replicate k wRow).flatten ++ pyOf "</table>") := by
      rw [List.replicate_succ, List.flatten_cons, List.append_assoc]
    rw [hstep, findRows_match_eq _ _ _ (tryMatchTr_wRow _), ih,
      List.replicate_succ]

/-- C3 helper: the scanner finds the header row and the thirty data rows in
the witness table. -/
theorem findRows_wHtml :
    findRows wHtml = wHeader :: List.replicate 30 wRow := by
  set Y : PyStr :=
    wHeader ++ ((List.replicate 30 wRow).flatten ++ pyOf "</table>") with hY
  have h0 : wHtml = '<' :: (pyOf "table>" ++ Y) := by
    rw [hY]
    unfold wHtml
    rw [List.append_assoc, List.append_assoc]
    rfl
  rw [h0, findRows_skip '<' (pyOf "table>" ++ Y) rfl,
    show pyOf "table>" ++ Y = 't' :: (pyOf "able>" ++ Y) from rfl,
    findRows_skip 't' (pyOf "able>" ++ Y) rfl,
    show pyOf "able>" ++ Y = 'a' :: (pyOf "ble>" ++ Y) from rfl,
    findRows_skip 'a' (pyOf "ble>" ++ Y) rfl,
    show pyOf "ble>" ++ Y = 'b' :: (pyOf "le>" ++ Y) from rfl,
    findRows_skip 'b' (pyOf "le>" ++ Y) rfl,
    show pyOf "le>" ++ Y = 'l' :: (pyOf "e>" ++ Y) from rfl,
    findRows_skip 'l' (pyOf "e>" ++ Y) rfl,
    show pyOf "e>" ++ Y = 'e' :: (pyOf ">" ++ Y) from rfl,
    findRows_skip 'e' (pyOf ">" ++ Y) rfl,
    show pyOf ">" ++ Y = '>' :: Y from rfl,
    findRows_skip '>' Y rfl]
  rw [hY, findRows_match_eq _ _ _ (tryMatchTr_wHeader _), findRows_wRows 30]

/-- C3 helper: witness component lengths. -/
theorem wHeader_length : wHeader.length = 34 := rfl

/-- C3 helper: the witness data row is 68 characters long. -/
theorem wRow_length : wRow.length = 68 := rfl

/-- C3 helper: the flattened witness rows are `68 * n` characters long. -/
theorem wRows_flatten_length (n : Nat) :
    ((List.replicate n wRow).flatten).length = 68 * n := by
  induction n with
  | zero => rfl
  | succ k ih =>
    rw [List.replicate_succ, List.flatten_cons, List.length_append, ih,
      wRow_length]
    ring

/-- C3 helper: the witness table is 2,089 characters long. -/
theorem wHtml_length : wHtml.length = 2089 := by
  unfold wHtml
  rw [List.length_append, List.length_append, List.length_append,
    wHeader_length, wRows_flatten_length]
  rfl

/-- C3 helper: the witness table contains the `"<tr>"` marker. -/
theorem wHtml_contains_tr : pyContains wHtml (pyOf "<tr>") = true := by
  have hR : wHtml = pyOf "<table>" ++ (wHeader ++
      ((List.replicate 30 wRow).flatten ++ pyOf "</table>")) := by
    unfold wHtml
    rw [List.append_assoc, List.append_assoc]
  rw [hR]
  apply pyContains_append_left
  exact pyContains_of_isPrefixOf _ _ rfl

/-- Witness for C3 (amended): on the 2,089-character witness table with a
34-char header and thirty 68-char rows, the hypotheses hold and every
emitted unit starts with the wrapped duplicated header and fits in 1,515
characters. -/
theorem chunkHtmlTable_spec_witness :
    (2000 < wHtml.length ∧ pyContains wHtml (pyOf "<tr>") = true ∧
     2 ≤ (findRows wHtml).length ∧
     (∀ r ∈ findRows wHtml,
       ((findRows wHtml).headD []).length + r.length ≤ 1500)) ∧
    (∀ c ∈ tableDocContents wHtml,
      (∃ t, c = pyOf "<table>" ++ (findRows wHtml).headD [] ++ t) ∧
      c.length ≤ 1515) := by
  have h1 : 2000 < wHtml.length := by rw [wHtml_length]; omega
  have h2 : pyContains wHtml (pyOf "<tr>") = true := wHtml_contains_tr
  have h3 : 2 ≤ (findRows wHtml).length := by
    rw [findRows_wHtml, List.length_cons, List.length_replicate]
    omega
  have h4 : ∀ r ∈ findRows wHtml,
      ((findRows wHtml).headD []).length + r.length ≤ 1500 := by
    intro r hr
    rw [findRows_wHtml] at hr
    rw [findRows_wHtml]
    rcases List.mem_cons.1 hr with rfl | hmem
    · rw [List.headD_cons, wHeader_length]
      omega
    · rw [List.headD_cons, wHeader_length,
        List.eq_of_mem_replicate hmem, wRow_length]
      omega
  exact ⟨⟨h1, h2, h3, h4⟩, (chunkHtmlTable_spec wHtml h1 h2).2 h3 h4⟩
